import Mathlib

/-!
# Verification of SugarPP's `Lazy<T>` (src/include/sugarpp/lazy/lazy.hpp)

This file gives a shallow embedding of the `Lazy` class and proves / refutes
the specification claims about it.

The C++ class holds
  `std::optional<T> m_value; Initializer m_initializer; ThreadSafetyMode m_mode;
   std::mutex m_lock; std::atomic_bool m_hasValue{false};`
and offers `value()` (lines 41-78) and `isInitialized()` (lines 80-83).

Modelling choices:
* The stateful initializer callable `m_initializer` is modelled as a pure
  function `initFn : Nat → Except Unit α` of the invocation index together
  with a counter `initCount` in the state: invocation number `k` (0-based)
  returns `initFn k`.  `Except.error` models the callable throwing.
* `std::optional<T>::value()` on an empty optional throws
  `std::bad_optional_access`; the read is modelled by `readSlot`, returning
  `Except.error LazyError.emptySlot` on an empty slot.
* A single sequential (uncontended) call to `value()` is modelled by
  `Lazy.value`, which also records the trace of lock operations and
  initializer invocations performed by the call (`Event`), so that claims
  about "no lock acquired on the fast path" or "initializer invoked outside
  any lock" are statable.
* The concurrent execution of the `Synchronized` branch is modelled
  separately (`SyncPC`, `SyncConfig`, `syncStep`) as a sequentially
  consistent interleaving of per-thread atomic steps, one step per memory
  access of lines 59-71, driven by an explicit schedule.
-/

namespace SugarPP

/-- lazy.hpp lines 18-23. -/
inductive ThreadSafetyMode
  | Synchronized
  | Publication
  | None
deriving DecidableEq

/-- Ways a `value()` call can throw: the initializer threw, or
`m_value.value()` was called on an empty optional (`std::bad_optional_access`). -/
inductive LazyError
  | initFail
  | emptySlot
deriving DecidableEq

/-- Observable actions of one `value()` call: initializer invocation, mutex
acquisition, mutex release. -/
inductive Event
  | invokeInit
  | lockAcquire
  | lockRelease
deriving DecidableEq

/-- The state of a `Lazy` object (lazy.hpp lines 29-33).  `initFn` models the
member `m_initializer` (a stateful callable, expressed as a function of the
invocation index); `initCount` counts how often it has been invoked. -/
structure Lazy (α : Type) where
  m_value : Option α
  initFn : Nat → Except Unit α
  m_mode : ThreadSafetyMode
  m_hasValue : Bool

namespace Lazy

/-- The constructor (lazy.hpp lines 35-39): stores the initializer and the
mode; the slot starts empty and `m_hasValue` starts `false`.  The
instrumentation counter starts at 0. -/
def make (f : Nat → Except Unit α) (mode : ThreadSafetyMode) : Lazy α :=
  { m_value := none, initFn := f, m_mode := mode, m_hasValue := false }

end Lazy

/-- A `Lazy` together with the invocation counter of its initializer. -/
structure LazyState (α : Type) where
  obj : Lazy α
  initCount : Nat

/-- `m_value.value()`: returns the contents, or throws
`std::bad_optional_access` when the optional is empty. -/
def readSlot : Option α → Except LazyError α
  | some v => .ok v
  | none => .error .emptySlot

/-- Result of one sequential `value()` call: the returned value or the
propagated exception, the post-state, and the trace of events the call
performed. -/
structure ValueResult (α : Type) where
  result : Except LazyError α
  state : LazyState α
  events : List Event

namespace LazyState

/-- Initial state for a freshly constructed object. -/
def mk0 (f : Nat → Except Unit α) (mode : ThreadSafetyMode) : LazyState α :=
  { obj := Lazy.make f mode, initCount := 0 }

/-- The block guarded by the mutex in the `Publication` branch
(lazy.hpp lines 51-55): `if (!m_hasValue) m_value.emplace(std::move(result));`
— store the locally computed result only if no value has been published yet,
otherwise discard it and keep the published one. -/
def publish (s : LazyState α) (result : α) : LazyState α :=
  if s.obj.m_hasValue then s
  else { s with obj := { s.obj with m_value := some result } }

/-- One sequential (single-threaded, uncontended) call to `value()`
(lazy.hpp lines 41-78), branch by branch:

* `Publication` (lines 45-58): fast-path acquire load of `m_hasValue`; if
  false, invoke the initializer outside the lock, publish under the lock via
  `publish`, store `m_hasValue := true` unconditionally, return
  `m_value.value()`.
* `Synchronized` (lines 59-72): fast-path load of `m_hasValue`; if false,
  lock, re-check `m_hasValue` (sequentially unchanged), invoke the
  initializer and emplace under the lock, unlock, store `m_hasValue := true`,
  return `m_value.value()`.
* default = `None` (lines 73-76): unconditionally
  `m_value.emplace(m_initializer())`, store `m_hasValue := true`, return
  `m_value.value()` — note there is no check of `m_hasValue` in this branch.

An initializer throw (`Except.error`) propagates before any store happens
(in C++ the argument of `emplace` is evaluated first); the lock, if held, is
released by the `lock_guard` destructor. -/
def value (s : LazyState α) : ValueResult α :=
  match s.obj.m_mode with
  | .Publication =>
    if s.obj.m_hasValue then
      { result := readSlot s.obj.m_value, state := s, events := [] }
    else
      match s.obj.initFn s.initCount with
      | .error _ =>
        { result := .error .initFail
          state := { s with initCount := s.initCount + 1 }
          events := [.invokeInit] }
      | .ok r =>
        let s₁ : LazyState α := { s with initCount := s.initCount + 1 }
        let s₂ := s₁.publish r
        let s₃ : LazyState α := { s₂ with obj := { s₂.obj with m_hasValue := true } }
        { result := readSlot s₃.obj.m_value
          state := s₃
          events := [.invokeInit, .lockAcquire, .lockRelease] }
  | .Synchronized =>
    if s.obj.m_hasValue then
      { result := readSlot s.obj.m_value, state := s, events := [] }
    else
      -- the mutex is acquired here; the re-check of `m_hasValue` under the
      -- lock (line 66) reads the same sequential state, so it is false and
      -- the call proceeds to initialize
      if s.obj.m_hasValue then
        { result := readSlot s.obj.m_value, state := s
          events := [.lockAcquire, .lockRelease] }
      else
        match s.obj.initFn s.initCount with
        | .error _ =>
          { result := .error .initFail
            state := { s with initCount := s.initCount + 1 }
            events := [.lockAcquire, .invokeInit, .lockRelease] }
        | .ok r =>
          let s₁ : LazyState α :=
            { obj := { s.obj with m_value := some r }, initCount := s.initCount + 1 }
          let s₂ : LazyState α := { s₁ with obj := { s₁.obj with m_hasValue := true } }
          { result := readSlot s₂.obj.m_value
            state := s₂
            events := [.lockAcquire, .invokeInit, .lockRelease] }
  | .None =>
    match s.obj.initFn s.initCount with
    | .error _ =>
      { result := .error .initFail
        state := { s with initCount := s.initCount + 1 }
        events := [.invokeInit] }
    | .ok r =>
      let s₁ : LazyState α :=
        { obj := { s.obj with m_value := some r, m_hasValue := true }
          initCount := s.initCount + 1 }
      { result := readSlot s₁.obj.m_value
        state := s₁
        events := [.invokeInit] }

/-- `isInitialized()` (lazy.hpp lines 80-83): `return m_hasValue;`. -/
def isInitialized (s : LazyState α) : Bool :=
  s.obj.m_hasValue

/-- `k` successive sequential calls to `value()`, collecting the results. -/
def runCalls : Nat → LazyState α → List (Except LazyError α) × LazyState α
  | 0, s => ([], s)
  | k + 1, s =>
    let r := s.value
    let p := runCalls k r.state
    (r.result :: p.1, p.2)

end LazyState

/-!
## Interleaved model of the `Synchronized` branch (lazy.hpp lines 59-71)

Each thread executes the `Synchronized` branch of `value()`.  Every shared
memory access is one atomic step; a schedule (list of thread ids) picks which
thread steps next, giving a sequentially consistent interleaving.  The
initializer is an always-succeeding stateful callable modelled as
`f : Nat → Nat` of the invocation index.

Per-thread program counter, mapped to the source lines:
* `start`      — about to perform the fast-path read of `m_hasValue` (line 61)
* `fastRead`   — fast path: about to read `m_value.value()` without the lock (line 62)
* `lockAcq`    — about to acquire `m_lock` (line 65); blocked while it is held
* `lockedCheck`— holding the lock, about to re-read `m_hasValue` (line 66)
* `initStore`  — holding the lock, about to run `m_value.emplace(m_initializer())` (line 68)
* `unlock`     — about to release the lock (`lock_guard` destructor, line 69)
* `setFlag`    — about to store `m_hasValue = true` (line 70)
* `finalRead`  — about to read `m_value.value()` (line 71)
* `done res`   — returned; `res` is the contents read from the slot
  (`Option.none` would mean a read of an empty optional)
-/

inductive SyncPC
  | start
  | fastRead
  | lockAcq
  | lockedCheck
  | initStore
  | unlock
  | setFlag
  | finalRead
  | done (res : Option Nat)
deriving DecidableEq

/-- Shared memory plus every thread's program counter, for `n` threads all
calling `value()` on one `Lazy` object in `Synchronized` mode. -/
structure SyncConfig (n : Nat) where
  lock : Bool
  slot : Option Nat
  hasValue : Bool
  initCount : Nat
  pcs : Fin n → SyncPC

/-- All threads at `start`, object freshly constructed. -/
def syncInit (n : Nat) : SyncConfig n :=
  { lock := false, slot := none, hasValue := false, initCount := 0
    pcs := fun _ => .start }

/-- One atomic step of thread `i` in the `Synchronized` branch.  A thread at
`lockAcq` while the lock is held, or a finished thread, does nothing. -/
def syncStep (f : Nat → Nat) (c : SyncConfig n) (i : Fin n) : SyncConfig n :=
  match c.pcs i with
  | .start =>
    { c with pcs := Function.update c.pcs i (if c.hasValue then .fastRead else .lockAcq) }
  | .fastRead =>
    { c with pcs := Function.update c.pcs i (.done c.slot) }
  | .lockAcq =>
    if c.lock then c
    else { c with lock := true, pcs := Function.update c.pcs i .lockedCheck }
  | .lockedCheck =>
    if c.hasValue then
      -- line 67: read the slot, and the guard releases the lock on return
      { c with lock := false, pcs := Function.update c.pcs i (.done c.slot) }
    else
      { c with pcs := Function.update c.pcs i .initStore }
  | .initStore =>
    { c with slot := some (f c.initCount), initCount := c.initCount + 1
             pcs := Function.update c.pcs i .unlock }
  | .unlock =>
    { c with lock := false, pcs := Function.update c.pcs i .setFlag }
  | .setFlag =>
    { c with hasValue := true, pcs := Function.update c.pcs i .finalRead }
  | .finalRead =>
    { c with pcs := Function.update c.pcs i (.done c.slot) }
  | .done _ => c

/-- Run a schedule: at each entry, the named thread performs its next step. -/
def syncRun (f : Nat → Nat) (sched : List (Fin n)) (c : SyncConfig n) : SyncConfig n :=
  sched.foldl (syncStep f) c

/-- The interleaving of two threads that exhibits double initialization:
thread 0 initializes and releases the lock (line 69), then thread 1 acquires
the lock and re-checks `m_hasValue` (line 66) *before* thread 0 has stored it
(line 70), so thread 1 initializes again. -/
def doubleInitSchedule : List (Fin 2) :=
  [0, 0, 0, 0, 0, 1, 1, 1, 0, 0, 1, 1, 1, 1]

/-- A counting initializer that never throws: invocation `k` returns `k + 1`. -/
def countingInit : Nat → Except Unit Nat :=
  fun k => .ok (k + 1)

/-- An initializer that throws on its first invocation and afterwards returns
the invocation index. -/
def failFirstInit : Nat → Except Unit Nat :=
  fun k => if k = 0 then .error () else .ok k

/-- Outcome of one initializer invocation, converted to the outcome of the
`value()` call that performed it: a throw propagates, a produced value is
returned. -/
def exceptOfInit : Except Unit α → Except LazyError α
  | .error _ => .error .initFail
  | .ok r => .ok r

/-- The representation invariant of the class: whenever `m_hasValue` is true,
the optional slot holds a value. -/
def slotInv (s : LazyState α) : Prop :=
  s.obj.m_hasValue = true → ∃ v, s.obj.m_value = some v

/-!
## Helper lemmas
-/

/-- After a `value()` call that returns `.ok v`, the flag is set. -/
theorem value_ok_flag {α : Type} (s : LazyState α) (v : α)
    (h : s.value.result = .ok v) :
    s.value.state.obj.m_hasValue = true := by
  obtain ⟨⟨mv, f, mode, hv⟩, cnt⟩ := s
  cases mode <;> cases hv <;>
    simp only [LazyState.value] at h ⊢ <;>
    first
      | (cases mv with
          | none => simp [readSlot] at h
          | some w => rfl)
      | (rcases hf : f cnt with e | r <;> simp [hf] at h ⊢)

/-- After a `value()` call in `Synchronized` or `Publication` mode that
returns `.ok v`, the mode is unchanged, the flag is set, the slot holds `v`,
and the initializer function is unchanged. -/
theorem value_ok_post {α : Type} (s : LazyState α) (v : α)
    (hmode : s.obj.m_mode ≠ ThreadSafetyMode.None)
    (h : s.value.result = .ok v) :
    s.value.state.obj.m_mode = s.obj.m_mode ∧
    s.value.state.obj.m_hasValue = true ∧
    s.value.state.obj.m_value = some v := by
  obtain ⟨⟨mv, f, mode, hv⟩, cnt⟩ := s
  cases mode
  case None => exact absurd rfl hmode
  all_goals cases hv
  case Synchronized.true | Publication.true =>
    all_goals
      cases mv with
      | none => simp [LazyState.value, readSlot] at h
      | some w =>
        simp [LazyState.value, readSlot] at h ⊢
        simp [h]
  all_goals
    rcases hf : f cnt with e | r
    all_goals simp [LazyState.value, hf, readSlot, LazyState.publish] at h ⊢
    all_goals simp [h]

/-- The fast path: in `Synchronized` or `Publication` mode with the flag set
and the slot holding `v`, `value()` returns `v`, performs no event (no lock,
no initializer invocation) and leaves the state untouched. -/
theorem value_fastPath {α : Type} (s : LazyState α) (v : α)
    (hmode : s.obj.m_mode ≠ ThreadSafetyMode.None)
    (hv : s.obj.m_hasValue = true)
    (hs : s.obj.m_value = some v) :
    s.value = ⟨.ok v, s, []⟩ := by
  obtain ⟨⟨mv, f, mode, hvf⟩, cnt⟩ := s
  cases mode <;>
    simp only at hv hs <;>
    subst hv <;> subst hs <;>
    first
      | exact absurd rfl hmode
      | simp [LazyState.value, readSlot]

/-- One `value()` call in `None` mode: the mode and the initializer are kept,
the invocation counter rises by exactly one, the only event is the initializer
invocation (no lock), and the call returns what the initializer produced,
storing it in the slot on success. -/
theorem value_none_step {α : Type} (s : LazyState α)
    (hmode : s.obj.m_mode = ThreadSafetyMode.None) :
    s.value.state.obj.m_mode = ThreadSafetyMode.None ∧
    s.value.state.obj.initFn = s.obj.initFn ∧
    s.value.state.initCount = s.initCount + 1 ∧
    s.value.events = [Event.invokeInit] ∧
    s.value.result = exceptOfInit (s.obj.initFn s.initCount) ∧
    s.value.state.obj.m_value =
      (match s.obj.initFn s.initCount with
        | .ok r => some r
        | .error _ => s.obj.m_value) := by
  obtain ⟨⟨mv, f, mode, hv⟩, cnt⟩ := s
  simp only at hmode
  subst hmode
  rcases hf : f cnt with e | r <;>
    simp [LazyState.value, hf, readSlot, exceptOfInit]

/-!
## Claim theorems
-/

/-- Claim C8 (confirmed): constructing a `Lazy` does not invoke the
initializer — the invocation count of a fresh state is 0 — and immediately
after construction `isInitialized()` returns `false` and the cached slot is
empty, for every initializer and every mode. -/
theorem c8_construction_is_lazy (α : Type) (f : Nat → Except Unit α)
    (mode : ThreadSafetyMode) :
    (LazyState.mk0 f mode).initCount = 0 ∧
    (LazyState.mk0 f mode).isInitialized = false ∧
    (LazyState.mk0 f mode).obj.m_value = Option.none := by
  refine ⟨rfl, rfl, rfl⟩

/-- Claim C1 (code_bug): in `Synchronized` mode the initializer is NOT always
invoked exactly once across concurrent first calls.  Under the interleaving
`doubleInitSchedule` — thread 1 passes the under-lock re-check of `m_hasValue`
(line 66) after thread 0 has released the mutex (line 69) but before thread 0
has stored `m_hasValue = true` (line 70) — a fresh 2-thread run invokes the
counting initializer twice, and the two threads return different values
(1 and 2). -/
theorem c1_synchronized_double_init :
    (syncRun (fun k => k + 1) doubleInitSchedule (syncInit 2)).initCount = 2 ∧
    (syncRun (fun k => k + 1) doubleInitSchedule (syncInit 2)).pcs 0 = .done (some 1) ∧
    (syncRun (fun k => k + 1) doubleInitSchedule (syncInit 2)).pcs 1 = .done (some 2) := by
  refine ⟨by decide, by decide, by decide⟩

/-- Claim C3 (code_bug): in `None` mode, repeated single-threaded calls to
`value()` do NOT invoke the initializer exactly once.  With the counting
initializer, the first call returns 1, but the second call invokes the
initializer again (invocation count 2) and returns 2 — the `default:` branch
(lines 73-76) never checks `m_hasValue`. -/
theorem c3_none_mode_reinvokes :
    ((LazyState.mk0 countingInit .None).value.result = .ok 1) ∧
    ((LazyState.mk0 countingInit .None).value.state.isInitialized = true) ∧
    ((LazyState.mk0 countingInit .None).value.state.value.result = .ok 2) ∧
    ((LazyState.mk0 countingInit .None).value.state.value.state.initCount = 2) := by
  refine ⟨rfl, rfl, rfl, rfl⟩

/-- Claim C4 (code_bug): the cached value is NOT left unchanged by every
operation after `m_hasValue` becomes true.  In `None` mode, after the first
call the state has `m_hasValue = true` and slot `some 1`; the next `value()`
call replaces the slot with `some 2`. -/
theorem c4_cached_value_replaced :
    ((LazyState.mk0 countingInit .None).value.state.isInitialized = true) ∧
    ((LazyState.mk0 countingInit .None).value.state.obj.m_value = some 1) ∧
    ((LazyState.mk0 countingInit .None).value.state.value.state.obj.m_value = some 2) ∧
    (some 2 ≠ some 1) := by
  refine ⟨rfl, rfl, rfl, by decide⟩

/-- Claim C2 (code_bug): the exception behaviour itself holds on this input —
the first call with `failFirstInit` (mode `None`) propagates the failure and
rolls back (slot empty, `isInitialized` false), and the second call succeeds
returning 1 — but the final clause fails: after the successful second call a
third call invokes the initializer AGAIN (invocation count rises to 3 and a
new value 2 is returned), contradicting "after which no further initializer
invocation occurs" for mode `None`. -/
theorem c2_retry_then_reinvoke :
    ((LazyState.mk0 failFirstInit .None).value.result = .error .initFail) ∧
    ((LazyState.mk0 failFirstInit .None).value.state.obj.m_value = Option.none) ∧
    ((LazyState.mk0 failFirstInit .None).value.state.isInitialized = false) ∧
    ((LazyState.mk0 failFirstInit .None).value.state.initCount = 1) ∧
    ((LazyState.mk0 failFirstInit .None).value.state.value.result = .ok 1) ∧
    ((LazyState.mk0 failFirstInit .None).value.state.value.state.value.state.initCount = 3) ∧
    ((LazyState.mk0 failFirstInit .None).value.state.value.state.value.result = .ok 2) := by
  refine ⟨rfl, rfl, rfl, rfl, rfl, rfl, rfl⟩

/-- Claim C7 (confirmed): `isInitialized()` returns exactly the current
`m_hasValue` (no lock is taken and no state is modified — it is a pure read),
it returns `false` on a freshly constructed object, and after a `value()`
call that returned successfully it returns `true`. -/
theorem c7_isInitialized_contract {α : Type} (f : Nat → Except Unit α)
    (mode : ThreadSafetyMode) (s : LazyState α) (v : α)
    (h : s.value.result = .ok v) :
    s.isInitialized = s.obj.m_hasValue ∧
    (LazyState.mk0 f mode).isInitialized = false ∧
    s.value.state.isInitialized = true :=
  ⟨rfl, rfl, value_ok_flag s v h⟩

/-- Witness for C7 at a concrete input. -/
theorem c7_isInitialized_contract_witness :
    (LazyState.mk0 countingInit .None).isInitialized =
      (LazyState.mk0 countingInit .None).obj.m_hasValue ∧
    (LazyState.mk0 countingInit .Synchronized).isInitialized = false ∧
    (LazyState.mk0 countingInit .None).value.state.isInitialized = true :=
  c7_isInitialized_contract countingInit .Synchronized
    (LazyState.mk0 countingInit .None) 1 rfl

/-- Claim C5 (confirmed): in `Synchronized` or `Publication` mode, once
`value()` has returned successfully, every subsequent call returns the same
value, performs no event at all (in particular does not invoke the
initializer and does not acquire the mutex: this is the fast path on
`m_hasValue == true`), and leaves the state unchanged. -/
theorem c5_fast_path_after_success {α : Type} (s : LazyState α) (v : α)
    (hmode : s.obj.m_mode ≠ ThreadSafetyMode.None)
    (h : s.value.result = .ok v) :
    s.value.state.value.result = .ok v ∧
    s.value.state.value.events = [] ∧
    s.value.state.value.state = s.value.state := by
  obtain ⟨hm, hfl, hs⟩ := value_ok_post s v hmode h
  have hfast := value_fastPath s.value.state v (by rw [hm]; exact hmode) hfl hs
  refine ⟨?_, ?_, ?_⟩ <;> rw [hfast]

/-- Witness for C5 at a concrete input. -/
theorem c5_fast_path_after_success_witness :
    (LazyState.mk0 countingInit .Synchronized).value.state.value.result = .ok 1 ∧
    (LazyState.mk0 countingInit .Synchronized).value.state.value.events = [] ∧
    (LazyState.mk0 countingInit .Synchronized).value.state.value.state =
      (LazyState.mk0 countingInit .Synchronized).value.state :=
  c5_fast_path_after_success (LazyState.mk0 countingInit .Synchronized) 1
    (by decide) rfl

/-- Claim C6 (confirmed): a `Publication`-mode `value()` call that observes
`m_hasValue == false` invokes the initializer before acquiring the lock (the
event trace is invoke, acquire, release), stores the result, sets
`m_hasValue` unconditionally, returns the published value, and counts one
invocation; and the guarded block `publish` stores the locally computed
result only when `m_hasValue` is still false, otherwise discards it and
keeps the already-published slot. -/
theorem c6_publication_slow_path {α : Type} (s t : LazyState α) (r x : α)
    (hmode : s.obj.m_mode = ThreadSafetyMode.Publication)
    (hv : s.obj.m_hasValue = false)
    (hr : s.obj.initFn s.initCount = .ok r) :
    s.value.events = [Event.invokeInit, Event.lockAcquire, Event.lockRelease] ∧
    s.value.state.obj.m_value = some r ∧
    s.value.state.obj.m_hasValue = true ∧
    s.value.result = .ok r ∧
    s.value.state.initCount = s.initCount + 1 ∧
    (t.publish x).obj.m_value =
      (if t.obj.m_hasValue then t.obj.m_value else some x) := by
  obtain ⟨⟨mv, f, mode, hvb⟩, cnt⟩ := s
  simp only at hmode hv hr
  subst hmode
  subst hv
  obtain ⟨⟨mv', f', mode', hvb'⟩, cnt'⟩ := t
  cases hvb' <;>
    simp [LazyState.value, hr, readSlot, LazyState.publish]

/-- Witness for C6 at a concrete input. -/
theorem c6_publication_slow_path_witness :
    (LazyState.mk0 countingInit .Publication).value.events =
      [Event.invokeInit, Event.lockAcquire, Event.lockRelease] ∧
    (LazyState.mk0 countingInit .Publication).value.state.obj.m_value = some 1 ∧
    (LazyState.mk0 countingInit .Publication).value.state.obj.m_hasValue = true ∧
    (LazyState.mk0 countingInit .Publication).value.result = .ok 1 ∧
    (LazyState.mk0 countingInit .Publication).value.state.initCount = 0 + 1 ∧
    ((LazyState.mk0 countingInit .Publication).publish 5).obj.m_value =
      (if (LazyState.mk0 countingInit .Publication).obj.m_hasValue
        then (LazyState.mk0 countingInit .Publication).obj.m_value
        else some 5) :=
  c6_publication_slow_path (LazyState.mk0 countingInit .Publication)
    (LazyState.mk0 countingInit .Publication) 1 5 rfl rfl rfl

/-- The `runCalls` part of claim C9: in `None` mode, the `j`-th of `k`
successive calls returns exactly the result of the `j`-th initializer
invocation, and `k` calls perform exactly `k` invocations. -/
theorem runCalls_none {α : Type} (k : Nat) (s : LazyState α)
    (hmode : s.obj.m_mode = ThreadSafetyMode.None) :
    (LazyState.runCalls k s).1 =
      (List.range k).map (fun i => exceptOfInit (s.obj.initFn (s.initCount + i))) ∧
    (LazyState.runCalls k s).2.initCount = s.initCount + k := by
  induction k generalizing s with
  | zero => simp [LazyState.runCalls]
  | succ k ih =>
    obtain ⟨hm, hfn, hc, _, hr, _⟩ := value_none_step s hmode
    obtain ⟨ih1, ih2⟩ := ih s.value.state hm
    have hshift : ∀ i, s.initCount + 1 + i = s.initCount + (i + 1) := by omega
    constructor
    · simp only [LazyState.runCalls, hr, ih1, hfn, hc, hshift,
        List.range_succ_eq_map, List.map_cons, List.map_map, Function.comp]
      simp [Nat.add_zero]
    · simp only [LazyState.runCalls, ih2, hc]
      omega

/-- Claim C9 (confirmed): in `None` mode every `value()` call — whatever the
current state, in particular also when `m_hasValue` is already true — invokes
the initializer (exactly one `invokeInit` event, no lock), returns exactly
what that invocation produced, replaces the slot with the new result on
success, and over `k` successive calls the `j`-th call returns the result of
the `j`-th invocation. -/
theorem c9_none_every_call_invokes {α : Type} (s : LazyState α)
    (hmode : s.obj.m_mode = ThreadSafetyMode.None) (k : Nat) :
    s.value.events = [Event.invokeInit] ∧
    s.value.result = exceptOfInit (s.obj.initFn s.initCount) ∧
    s.value.state.obj.m_value =
      (match s.obj.initFn s.initCount with
        | .ok r => some r
        | .error _ => s.obj.m_value) ∧
    (LazyState.runCalls k s).1 =
      (List.range k).map (fun i => exceptOfInit (s.obj.initFn (s.initCount + i))) ∧
    (LazyState.runCalls k s).2.initCount = s.initCount + k := by
  obtain ⟨_, _, _, he, hr, hs⟩ := value_none_step s hmode
  obtain ⟨h1, h2⟩ := runCalls_none k s hmode
  exact ⟨he, hr, hs, h1, h2⟩

/-- Witness for C9 at a concrete input. -/
theorem c9_none_every_call_invokes_witness :
    (LazyState.mk0 countingInit .None).value.events = [Event.invokeInit] ∧
    (LazyState.runCalls 2 (LazyState.mk0 countingInit .None)).1 =
      (List.range 2).map (fun i => exceptOfInit (countingInit (0 + i))) ∧
    (LazyState.runCalls 2 (LazyState.mk0 countingInit .None)).2.initCount = 0 + 2 :=
  ⟨(c9_none_every_call_invokes (LazyState.mk0 countingInit .None) rfl 2).1,
   (c9_none_every_call_invokes (LazyState.mk0 countingInit .None) rfl 2).2.2.2.1,
   (c9_none_every_call_invokes (LazyState.mk0 countingInit .None) rfl 2).2.2.2.2⟩

/-- Claim C10 (confirmed): the invariant "`m_hasValue == true` implies the
optional slot holds a value" holds after construction and is preserved by
every `value()` call (and trivially by the pure read `isInitialized()`), and
under it no `value()` call ever throws `std::bad_optional_access` — the
empty-optional access branch of `m_value.value()` is unreachable. -/
theorem c10_slot_invariant {α : Type} (f : Nat → Except Unit α)
    (mode : ThreadSafetyMode) (s : LazyState α) (hinv : slotInv s) :
    slotInv (LazyState.mk0 f mode) ∧
    slotInv s.value.state ∧
    s.value.result ≠ .error .emptySlot := by
  refine ⟨fun h => Bool.noConfusion h, ?_, ?_⟩ <;>
  · obtain ⟨⟨mv, f0, mode0, hvb⟩, cnt⟩ := s
    cases hvb with
    | false =>
      cases mode0 <;>
        rcases hf : f0 cnt with e | r <;>
          simp [LazyState.value, slotInv, readSlot, hf, LazyState.publish]
    | true =>
      obtain ⟨w, hw⟩ := hinv rfl
      simp only at hw
      subst hw
      cases mode0 <;>
        rcases hf : f0 cnt with e | r <;>
          simp [LazyState.value, slotInv, readSlot, hf]

/-- Witness for C10 at a concrete input. -/
theorem c10_slot_invariant_witness :
    slotInv (LazyState.mk0 countingInit .None) ∧
    slotInv (LazyState.mk0 countingInit .Synchronized).value.state ∧
    (LazyState.mk0 countingInit .Synchronized).value.result ≠ .error .emptySlot :=
  c10_slot_invariant countingInit .None
    (LazyState.mk0 countingInit .Synchronized) (fun h => Bool.noConfusion h)

end SugarPP
